import Mathlib

/-!
# Client registry service (`src/main.go`)

A shallow embedding of the in-memory CRUD service: the `Client` record with its
JSON field tags, the package-level store (`clients`, `currentID`), the two
response helpers and the five handlers, followed by the properties of the
service.

Modelling conventions

* The Go map `clients` is a finite association list with pairwise distinct
  keys (`AList`).  Only lookups, inserts, deletes, the length and one full
  iteration are used by the handlers.  The order in which `range` visits a Go
  map is unspecified; here it is the order of the entries of the association
  list, and every order is the entry order of some store value.
* `currentID` is a Go `int`, taken to be 64 bits wide: `currentID++` wraps
  around in two's complement (`wrapInt`).
* A request body is represented by what `encoding/json` scans from it: either
  no JSON value at all (empty, truncated or otherwise malformed text) or the
  first JSON value of the body, as a syntax tree.
* A response is the status code, the `Content-Type` header and the JSON value
  written as body, if any.
-/

namespace Ristorant

/-! ## JSON values -/

/-- Syntax tree of a JSON value. Object members keep their textual order,
duplicates included. -/
inductive JSON where
  | null
  | bool (b : Bool)
  | number (literal : String)
  | string (s : String)
  | array (items : List JSON)
  | object (members : List (String × JSON))

/-! ## Data model -/

/-- Go: `type Client struct`, five string fields tagged
`id`, `nome`, `nascimento`, `endereco`, `telefone`. -/
structure Client where
  ID : String
  Nome : String
  Nascimento : String
  Endereco : String
  Telefone : String
deriving DecidableEq, Repr

/-- The zero value of `Client` (Go: `var client Client`). -/
def Client.zero : Client := ⟨"", "", "", "", ""⟩

/-- The JSON keys of the struct tags of `Client`, in field order. -/
def clientTags : List String := ["id", "nome", "nascimento", "endereco", "telefone"]

/-- Package-level state: `var clients = make(map[string]Client)` and
`var currentID = 1`. -/
structure Store where
  clients : AList (fun _ : String => Client)
  currentID : Int

/-! ## Machine integers and `strconv.Itoa` -/

/-- Two's complement wrap-around of a 64-bit Go `int`. -/
def wrapInt (x : Int) : Int := (x + 9223372036854775808) % 18446744073709551616 - 9223372036854775808

/-- Go: `strconv.Itoa`, the decimal text of an integer, with a leading minus
sign for negative numbers. -/
def Itoa (i : Int) : String := Int.repr i

/-! ## `encoding/json`: decoding a body into a `Client` -/

/-- Case folding of one character as used when JSON keys are matched against
field names: ASCII letters fold to lower case, and the Kelvin sign and the long
s fold to `k` and `s`, the only non-ASCII characters whose simple case folding
is an ASCII letter. -/
def foldRune (c : Char) : Char :=
  if c = Char.ofNat 0x212A then 'k'
  else if c = Char.ofNat 0x017F then 's'
  else c.toLower

/-- Case folding of a JSON key. -/
def foldName (key : String) : String := String.mk (key.data.map foldRune)

/-- Store a decoded string into the field whose tag is `tag`. -/
def Client.setField (c : Client) (tag : String) (v : String) : Client :=
  if tag = "id" then { c with ID := v }
  else if tag = "nome" then { c with Nome := v }
  else if tag = "nascimento" then { c with Nascimento := v }
  else if tag = "endereco" then { c with Endereco := v }
  else if tag = "telefone" then { c with Telefone := v }
  else c

/-- Decoding of one object member into the struct. The boolean is the saved
type error: a key that matches no field (up to case folding) is skipped; for a
matching key a JSON string is stored, `null` leaves the field as it is, and
any other value records an `UnmarshalTypeError` while decoding goes on. -/
def decodeMember (st : Client × Bool) (kv : String × JSON) : Client × Bool :=
  if foldName kv.1 ∈ clientTags then
    match kv.2 with
    | JSON.string v => (st.1.setField (foldName kv.1) v, st.2)
    | JSON.null => st
    | _ => (st.1, true)
  else st

/-- Why a body could not be decoded. -/
inductive DecodeError where
  | syntaxError
  | unmarshalType
deriving DecidableEq, Repr

/-- Go: `json.NewDecoder(r.Body).Decode(&client)`. `body` is the first JSON
value of the request body, or `none` when no value can be read. `null` decodes
without touching the struct; an object is decoded member by member; any other
value is a type error. -/
def Decode (body : Option JSON) (client : Client) : Except DecodeError Client :=
  match body with
  | none => Except.error DecodeError.syntaxError
  | some JSON.null => Except.ok client
  | some (JSON.object members) =>
    let r := members.foldl decodeMember (client, false)
    if r.2 then Except.error DecodeError.unmarshalType else Except.ok r.1
  | some _ => Except.error DecodeError.unmarshalType

/-! ## `encoding/json`: encoding a payload -/

/-- The values the handlers pass as `payload interface{}`. -/
inductive Payload where
  | client (c : Client)
  | clientList (l : List Client)
  | stringMap (m : List (String × String))

/-- JSON form of a `Client`, one member per struct tag. -/
def marshalClient (c : Client) : JSON :=
  JSON.object [("id", JSON.string c.ID), ("nome", JSON.string c.Nome),
    ("nascimento", JSON.string c.Nascimento), ("endereco", JSON.string c.Endereco),
    ("telefone", JSON.string c.Telefone)]

/-- Go: `json.NewEncoder(w).Encode(payload)`. -/
def marshal : Payload → JSON
  | Payload.client c => marshalClient c
  | Payload.clientList l => JSON.array (l.map marshalClient)
  | Payload.stringMap m => JSON.object (m.map fun kv => (kv.1, JSON.string kv.2))

/-! ## Responses -/

/-- What a handler writes: status code, `Content-Type` header and body. -/
structure Response where
  code : Nat
  contentType : String
  body : Option JSON

def StatusOK : Nat := 200
def StatusCreated : Nat := 201
def StatusNoContent : Nat := 204
def StatusBadRequest : Nat := 400
def StatusNotFound : Nat := 404

/-- Go: `respondWithJSON`. The header is set, the status written, and the
payload encoded unless it is `nil`. -/
def respondWithJSON (code : Nat) (payload : Option Payload) : Response :=
  { code := code, contentType := "application/json", body := payload.map marshal }

/-- Go: `respondWithError`. -/
def respondWithError (code : Nat) (message : String) : Response :=
  respondWithJSON code (some (Payload.stringMap [("error", message)]))

/-! ## Handlers -/

/-- Go: `createClient`. -/
def createClient (s : Store) (body : Option JSON) : Store × Response :=
  match Decode body Client.zero with
  | Except.error _ => (s, respondWithError StatusBadRequest "Requisição com JSON inválido")
  | Except.ok client =>
    let currentID := wrapInt (s.currentID + 1)
    let client := { client with ID := Itoa currentID }
    ({ clients := s.clients.insert client.ID client, currentID := currentID },
      respondWithJSON StatusCreated (some (Payload.client client)))

/-- Go: `getClients`. -/
def getClients (s : Store) : Store × Response :=
  if s.clients.entries.length = 0 then
    (s, respondWithJSON StatusOK (some (Payload.clientList [])))
  else
    let clientList := s.clients.entries.foldl (fun acc e => acc ++ [e.2]) []
    (s, respondWithJSON StatusOK (some (Payload.clientList clientList)))

/-- Go: `getClient`. -/
def getClient (s : Store) (id : String) : Store × Response :=
  match s.clients.lookup id with
  | none => (s, respondWithError StatusNotFound "Cliente não encontrado")
  | some client => (s, respondWithJSON StatusOK (some (Payload.client client)))

/-- Go: `updateClient`. -/
def updateClient (s : Store) (id : String) (body : Option JSON) : Store × Response :=
  match s.clients.lookup id with
  | none => (s, respondWithError StatusNotFound "Cliente não encontrado")
  | some _ =>
    match Decode body Client.zero with
    | Except.error _ => (s, respondWithError StatusBadRequest "Requisição com JSON inválido")
    | Except.ok clientUpdate =>
      let clientUpdate := { clientUpdate with ID := id }
      ({ s with clients := s.clients.insert id clientUpdate },
        respondWithJSON StatusOK (some (Payload.client clientUpdate)))

/-- Go: `deleteClient`. -/
def deleteClient (s : Store) (id : String) : Store × Response :=
  match s.clients.lookup id with
  | none => (s, respondWithError StatusNotFound "Cliente não encontrado")
  | some _ => ({ s with clients := s.clients.erase id }, respondWithJSON StatusNoContent none)

/-- The store when the server starts serving: `currentID = 1` and the record
that `main` puts under key `"1"`. -/
def main : Store :=
  { clients := (∅ : AList (fun _ : String => Client)).insert "1"
      { ID := "1", Nome := "John Doe", Nascimento := "01/01/1990",
        Endereco := "123 Main St", Telefone := "555-5555" },
    currentID := 1 }

/-! ## Router and runs -/

/-- The five routes registered in `main`. -/
inductive Request where
  | getClients
  | getClient (id : String)
  | createClient (body : Option JSON)
  | updateClient (id : String) (body : Option JSON)
  | deleteClient (id : String)

/-- Dispatch of one request to its handler. -/
def handle (s : Store) : Request → Store × Response
  | Request.getClients => getClients s
  | Request.getClient id => getClient s id
  | Request.createClient body => createClient s body
  | Request.updateClient id body => updateClient s id body
  | Request.deleteClient id => deleteClient s id

/-- The store after a sequence of requests, handled one after the other. -/
def run (s : Store) : List Request → Store
  | [] => s
  | r :: rs => run (handle s r).1 rs

/-- Number of requests of a run that are answered `201 Created`. -/
def createdCount (s : Store) : List Request → Nat
  | [] => 0
  | r :: rs =>
    (if (handle s r).2.code = StatusCreated then 1 else 0) + createdCount (handle s r).1 rs

/-- Value of a field of a record, selected by its JSON tag. -/
def Client.getField (c : Client) (tag : String) : String :=
  if tag = "id" then c.ID
  else if tag = "nome" then c.Nome
  else if tag = "nascimento" then c.Nascimento
  else if tag = "endereco" then c.Endereco
  else if tag = "telefone" then c.Telefone
  else ""

/-- Numeric value of a decimal digit character. -/
def digitVal (c : Char) : Nat := c.toNat - 48

/-- Value of a string of decimal digits read after the prefix of value `acc`. -/
def decimalValue (cs : List Char) (acc : Nat) : Nat :=
  cs.foldl (fun a c => a * 10 + digitVal c) acc

/-- Every record of the mapping carries the key it is stored under. -/
def IdsMatchKeys (s : Store) : Prop :=
  ∀ k c, s.clients.lookup k = some c → c.ID = k

/-- Every key of the mapping is the decimal text of a counter value between
`1` and the current one. -/
def KeysMinted (s : Store) : Prop :=
  ∀ k, k ∈ s.clients → ∃ m : Int, 1 ≤ m ∧ m ≤ s.currentID ∧ k = Itoa m

/-! ## Decimal text of integers -/

theorem digitVal_digitChar (d : Nat) (h : d < 10) : digitVal (Nat.digitChar d) = d := by
  interval_cases d <;> rfl

theorem digitChar_ne_minus (d : Nat) (h : d < 10) : Nat.digitChar d ≠ '-' := by
  interval_cases d <;> decide

theorem decimalValue_toDigitsCore (fuel : Nat) : ∀ (n : Nat) (ds : List Char), n < fuel →
    decimalValue (Nat.toDigitsCore 10 fuel n ds) 0 = decimalValue ds n := by
  induction fuel with
  | zero => intro n ds h; omega
  | succ fuel ih =>
    intro n ds h
    have hd : digitVal (Nat.digitChar (n % 10)) = n % 10 :=
      digitVal_digitChar _ (Nat.mod_lt _ (by decide))
    simp only [Nat.toDigitsCore]
    split
    · have h1 : n % 10 = n := by omega
      rw [h1] at hd
      simp only [decimalValue, List.foldl_cons, h1, hd, Nat.zero_mul, Nat.zero_add]
    · rw [ih (n / 10) _ (by omega)]
      simp only [decimalValue, List.foldl_cons, hd]
      congr 1
      omega

theorem minus_not_mem_toDigitsCore (fuel : Nat) : ∀ (n : Nat) (ds : List Char), '-' ∉ ds →
    '-' ∉ Nat.toDigitsCore 10 fuel n ds := by
  induction fuel with
  | zero => intro n ds h; simpa [Nat.toDigitsCore] using h
  | succ fuel ih =>
    intro n ds h
    have hd : Nat.digitChar (n % 10) ≠ '-' := digitChar_ne_minus _ (Nat.mod_lt _ (by decide))
    have h2 : '-' ∉ Nat.digitChar (n % 10) :: ds := by
      simp only [List.mem_cons, not_or]; exact ⟨fun e => hd e.symm, h⟩
    simp only [Nat.toDigitsCore]
    split
    · exact h2
    · exact ih _ _ h2

theorem toDigitsCore_ne_nil (fuel n : Nat) (ds : List Char) (h : 0 < fuel) :
    Nat.toDigitsCore 10 fuel n ds ≠ [] := by
  intro e
  have hl := congrArg List.length e
  cases fuel with
  | zero => omega
  | succ f =>
    simp only [Nat.toDigitsCore] at hl
    split at hl
    · simp at hl
    · rw [Nat.toDigitsCore_lens_eq] at hl
      simp at hl

theorem natRepr_injective : Function.Injective Nat.repr := by
  intro a b h
  have h2 : Nat.toDigits 10 a = Nat.toDigits 10 b := by
    have := congrArg String.data h
    simpa [Nat.repr, List.asString] using this
  have ha := decimalValue_toDigitsCore (a + 1) a [] (by omega)
  have hb := decimalValue_toDigitsCore (b + 1) b [] (by omega)
  unfold Nat.toDigits at h2
  rw [h2, hb] at ha
  simpa [decimalValue] using ha.symm

/-- Distinct integers have distinct decimal texts. -/
theorem Itoa_injective : Function.Injective Itoa := by
  intro a b h
  unfold Itoa at h
  have hm : ∀ n : Nat, '-' ∉ (Nat.repr n).data := fun n => by
    simpa [Nat.repr, List.asString, Nat.toDigits] using
      minus_not_mem_toDigitsCore (n + 1) n [] (by simp)
  have hneg : ∀ n : Nat, '-' ∈ ("-" ++ Nat.repr n).data := fun n => by
    simp [String.data_append]
  cases a with
  | ofNat m =>
    cases b with
    | ofNat k => simp only [Int.repr] at h; rw [natRepr_injective h]
    | negSucc k =>
      simp only [Int.repr] at h
      exact absurd (h ▸ hneg (k + 1)) (hm m)
  | negSucc m =>
    cases b with
    | ofNat k =>
      simp only [Int.repr] at h
      exact absurd (h ▸ hneg (m + 1)) (hm k)
    | negSucc k =>
      simp only [Int.repr] at h
      have h3 := congrArg String.data h
      simp only [String.data_append, List.append_cancel_left_eq] at h3
      have h4 : Nat.repr (m + 1) = Nat.repr (k + 1) := String.ext h3
      have h5 := natRepr_injective h4
      have h6 : m = k := by omega
      rw [h6]

/-- The decimal text of an integer is never the empty string. -/
theorem Itoa_ne_empty (i : Int) : Itoa i ≠ "" := by
  have hn : ∀ n : Nat, (Nat.repr n).data ≠ [] := fun n => by
    simpa [Nat.repr, List.asString, Nat.toDigits] using
      toDigitsCore_ne_nil (n + 1) n [] (by omega)
  intro h
  unfold Itoa at h
  cases i with
  | ofNat m => simp only [Int.repr] at h; exact hn m (by rw [h])
  | negSucc m =>
    simp only [Int.repr] at h
    have h3 := congrArg String.data h
    simp [String.data_append] at h3

/-! ## Machine arithmetic -/

theorem wrapInt_of_inRange (x : Int) (h1 : -9223372036854775808 ≤ x)
    (h2 : x < 9223372036854775808) : wrapInt x = x := by
  unfold wrapInt; omega

theorem wrapInt_wrapInt_add (x y : Int) : wrapInt (wrapInt x + y) = wrapInt (x + y) := by
  unfold wrapInt; omega

/-! ## The handlers, case by case -/

theorem createClient_ok (s : Store) (body : Option JSON) (c : Client)
    (h : Decode body Client.zero = Except.ok c) :
    createClient s body =
      ({ clients := s.clients.insert (Itoa (wrapInt (s.currentID + 1)))
            { c with ID := Itoa (wrapInt (s.currentID + 1)) },
         currentID := wrapInt (s.currentID + 1) },
        respondWithJSON StatusCreated
          (some (Payload.client { c with ID := Itoa (wrapInt (s.currentID + 1)) }))) := by
  simp only [createClient, h]

theorem createClient_error (s : Store) (body : Option JSON) (e : DecodeError)
    (h : Decode body Client.zero = Except.error e) :
    createClient s body =
      (s, respondWithError StatusBadRequest "Requisição com JSON inválido") := by
  simp only [createClient, h]

theorem updateClient_absent (s : Store) (id : String) (body : Option JSON)
    (h : s.clients.lookup id = none) :
    updateClient s id body = (s, respondWithError StatusNotFound "Cliente não encontrado") := by
  simp only [updateClient, h]

theorem updateClient_error (s : Store) (id : String) (body : Option JSON) (old : Client)
    (e : DecodeError) (h : s.clients.lookup id = some old)
    (hd : Decode body Client.zero = Except.error e) :
    updateClient s id body =
      (s, respondWithError StatusBadRequest "Requisição com JSON inválido") := by
  simp only [updateClient, h, hd]

theorem updateClient_ok (s : Store) (id : String) (body : Option JSON) (old u : Client)
    (h : s.clients.lookup id = some old) (hd : Decode body Client.zero = Except.ok u) :
    updateClient s id body =
      ({ s with clients := s.clients.insert id { u with ID := id } },
        respondWithJSON StatusOK (some (Payload.client { u with ID := id }))) := by
  simp only [updateClient, h, hd]

theorem deleteClient_absent (s : Store) (id : String) (h : s.clients.lookup id = none) :
    deleteClient s id = (s, respondWithError StatusNotFound "Cliente não encontrado") := by
  simp only [deleteClient, h]

theorem deleteClient_present (s : Store) (id : String) (old : Client)
    (h : s.clients.lookup id = some old) :
    deleteClient s id =
      ({ s with clients := s.clients.erase id }, respondWithJSON StatusNoContent none) := by
  simp only [deleteClient, h]

theorem getClient_absent (s : Store) (id : String) (h : s.clients.lookup id = none) :
    getClient s id = (s, respondWithError StatusNotFound "Cliente não encontrado") := by
  simp only [getClient, h]

theorem getClient_present (s : Store) (id : String) (c : Client)
    (h : s.clients.lookup id = some c) :
    getClient s id = (s, respondWithJSON StatusOK (some (Payload.client c))) := by
  simp only [getClient, h]

theorem getClients_store (s : Store) : (getClients s).1 = s := by
  unfold getClients; split <;> rfl

theorem foldl_append_values (es : List (Sigma fun _ : String => Client)) :
    ∀ init : List Client,
      es.foldl (fun acc e => acc ++ [e.2]) init = init ++ es.map fun e => e.2 := by
  induction es with
  | nil => intro init; simp
  | cons e es ih => intro init; simp [ih]

theorem getClients_response (s : Store) :
    (getClients s).2 =
      respondWithJSON StatusOK (some (Payload.clientList (s.clients.entries.map fun e => e.2))) := by
  unfold getClients
  split
  · rename_i h
    have h0 : s.clients.entries = [] := List.length_eq_zero.mp h
    simp [h0]
  · simp [foldl_append_values]

/-! ## Runs -/

theorem run_append (s : Store) (a b : List Request) : run s (a ++ b) = run (run s a) b := by
  induction a generalizing s with
  | nil => rfl
  | cons r rs ih => exact ih (handle s r).1

theorem createdCount_append (s : Store) (a b : List Request) :
    createdCount s (a ++ b) = createdCount s a + createdCount (run s a) b := by
  induction a generalizing s with
  | nil => simp [createdCount, run]
  | cons r rs ih =>
    show _ + createdCount (handle s r).1 (rs ++ b) = _
    rw [ih]
    simp only [createdCount, run]
    omega

theorem respondWithJSON_code (code : Nat) (p : Option Payload) :
    (respondWithJSON code p).code = code := rfl

theorem respondWithError_code (code : Nat) (m : String) :
    (respondWithError code m).code = code := rfl

theorem respondWithError_body (code : Nat) (m : String) :
    (respondWithError code m).body = some (JSON.object [("error", JSON.string m)]) := rfl

/-- A request is answered `201 Created` exactly when it is a create whose body decodes. -/
theorem handle_created_iff (s : Store) (r : Request) :
    (handle s r).2.code = StatusCreated ↔
      ∃ body c, r = Request.createClient body ∧ Decode body Client.zero = Except.ok c := by
  cases r with
  | getClients =>
    simp only [handle, getClients_response, respondWithJSON_code]
    constructor
    · intro h; simp [StatusOK, StatusCreated] at h
    · rintro ⟨_, _, h, _⟩; cases h
  | getClient id =>
    simp only [handle]
    constructor
    · intro h
      cases hl : s.clients.lookup id with
      | none => rw [getClient_absent s id hl] at h; simp [respondWithError, respondWithJSON, StatusOK, StatusCreated, StatusNoContent, StatusBadRequest, StatusNotFound] at h
      | some c => rw [getClient_present s id c hl] at h; simp [respondWithError, respondWithJSON, StatusOK, StatusCreated, StatusNoContent, StatusBadRequest, StatusNotFound] at h
    · rintro ⟨_, _, h, _⟩; cases h
  | createClient body =>
    simp only [handle]
    constructor
    · intro h
      cases hd : Decode body Client.zero with
      | error e => rw [createClient_error s body e hd] at h; simp [respondWithError, respondWithJSON, StatusOK, StatusCreated, StatusNoContent, StatusBadRequest, StatusNotFound] at h
      | ok c => exact ⟨body, c, rfl, hd⟩
    · rintro ⟨b, c, h, hd⟩
      cases h
      rw [createClient_ok s body c hd]; rfl
  | updateClient id body =>
    simp only [handle]
    constructor
    · intro h
      cases hl : s.clients.lookup id with
      | none => rw [updateClient_absent s id body hl] at h; simp [respondWithError, respondWithJSON, StatusOK, StatusCreated, StatusNoContent, StatusBadRequest, StatusNotFound] at h
      | some old =>
        cases hd : Decode body Client.zero with
        | error e => rw [updateClient_error s id body old e hl hd] at h; simp [respondWithError, respondWithJSON, StatusOK, StatusCreated, StatusNoContent, StatusBadRequest, StatusNotFound] at h
        | ok u => rw [updateClient_ok s id body old u hl hd] at h; simp [respondWithError, respondWithJSON, StatusOK, StatusCreated, StatusNoContent, StatusBadRequest, StatusNotFound] at h
    · rintro ⟨_, _, h, _⟩; cases h
  | deleteClient id =>
    simp only [handle]
    constructor
    · intro h
      cases hl : s.clients.lookup id with
      | none => rw [deleteClient_absent s id hl] at h; simp [respondWithError, respondWithJSON, StatusOK, StatusCreated, StatusNoContent, StatusBadRequest, StatusNotFound] at h
      | some old => rw [deleteClient_present s id old hl] at h; simp [respondWithError, respondWithJSON, StatusOK, StatusCreated, StatusNoContent, StatusBadRequest, StatusNotFound] at h
    · rintro ⟨_, _, h, _⟩; cases h

theorem lookup_insert_eq_some {m : AList (fun _ : String => Client)} {k id : String}
    {c v : Client} (h : (m.insert id v).lookup k = some c) :
    (k = id ∧ c = v) ∨ (k ≠ id ∧ m.lookup k = some c) := by
  by_cases hk : k = id
  · subst hk
    rw [AList.lookup_insert] at h
    exact Or.inl ⟨rfl, (Option.some.inj h).symm⟩
  · rw [AList.lookup_insert_ne hk] at h
    exact Or.inr ⟨hk, h⟩

theorem lookup_erase_eq_some {m : AList (fun _ : String => Client)} {k id : String}
    {c : Client} (h : (m.erase id).lookup k = some c) : k ≠ id ∧ m.lookup k = some c := by
  by_cases hk : k = id
  · subst hk
    rw [AList.lookup_erase] at h
    cases h
  · rw [AList.lookup_erase_ne hk] at h
    exact ⟨hk, h⟩

/-- Each handler keeps every record under the key that equals its id. -/
theorem handle_idsMatchKeys (s : Store) (r : Request) (hI : IdsMatchKeys s) :
    IdsMatchKeys (handle s r).1 := by
  cases r with
  | getClients => simpa only [handle, getClients_store] using hI
  | getClient id =>
    simp only [handle]
    cases hl : s.clients.lookup id with
    | none => rw [getClient_absent s id hl]; exact hI
    | some c => rw [getClient_present s id c hl]; exact hI
  | createClient body =>
    simp only [handle]
    cases hd : Decode body Client.zero with
    | error e => rw [createClient_error s body e hd]; exact hI
    | ok c =>
      rw [createClient_ok s body c hd]
      intro k c2 h
      rcases lookup_insert_eq_some h with ⟨hk, hc⟩ | ⟨_, hc⟩
      · rw [hc, hk]
      · exact hI k c2 hc
  | updateClient id body =>
    simp only [handle]
    cases hl : s.clients.lookup id with
    | none => rw [updateClient_absent s id body hl]; exact hI
    | some old =>
      cases hd : Decode body Client.zero with
      | error e => rw [updateClient_error s id body old e hl hd]; exact hI
      | ok u =>
        rw [updateClient_ok s id body old u hl hd]
        intro k c2 h
        rcases lookup_insert_eq_some h with ⟨hk, hc⟩ | ⟨_, hc⟩
        · rw [hc, hk]
        · exact hI k c2 hc
  | deleteClient id =>
    simp only [handle]
    cases hl : s.clients.lookup id with
    | none => rw [deleteClient_absent s id hl]; exact hI
    | some old =>
      rw [deleteClient_present s id old hl]
      intro k c2 h
      exact hI k c2 (lookup_erase_eq_some h).2

theorem run_idsMatchKeys (rs : List Request) : ∀ s : Store, IdsMatchKeys s →
    IdsMatchKeys (run s rs) := by
  induction rs with
  | nil => intro s h; exact h
  | cons r rs ih => intro s h; exact ih _ (handle_idsMatchKeys s r h)

theorem main_idsMatchKeys : IdsMatchKeys main := by
  intro k c h
  rcases lookup_insert_eq_some h with ⟨hk, hc⟩ | ⟨_, hc⟩
  · rw [hc, hk]
  · rw [AList.lookup_empty] at hc; cases hc

theorem main_keysMinted : KeysMinted main := by
  intro k hk
  have h1 : k = "1" := by
    have := (AList.mem_insert (∅ : AList (fun _ : String => Client))).mp hk
    rcases this with h | h
    · exact h
    · exact absurd h (AList.not_mem_empty k)
  exact ⟨1, le_refl _, le_refl _, by rw [h1]; decide⟩

/-- While the counter stays below the largest `int`, a handler moves it up by
one on a `201` and leaves it alone otherwise, and every key remains the text
of a counter value already handed out. -/
theorem handle_keysMinted (s : Store) (r : Request) (hK : KeysMinted s)
    (h1 : 1 ≤ s.currentID)
    (hb : s.currentID + (if (handle s r).2.code = StatusCreated then 1 else 0)
      ≤ 9223372036854775807) :
    KeysMinted (handle s r).1 ∧
      (handle s r).1.currentID =
        s.currentID + (if (handle s r).2.code = StatusCreated then 1 else 0) := by
  cases r with
  | getClients =>
    simp only [handle, getClients_store, getClients_response, respondWithJSON_code]
    exact ⟨hK, by simp [StatusOK, StatusCreated]⟩
  | getClient id =>
    simp only [handle] at hb ⊢
    cases hl : s.clients.lookup id with
    | none =>
      simp only [getClient_absent s id hl, respondWithError_code]
      exact ⟨hK, by simp [StatusNotFound, StatusCreated]⟩
    | some c =>
      simp only [getClient_present s id c hl, respondWithJSON_code]
      exact ⟨hK, by simp [StatusOK, StatusCreated]⟩
  | createClient body =>
    simp only [handle] at hb ⊢
    cases hd : Decode body Client.zero with
    | error e =>
      simp only [createClient_error s body e hd, respondWithError_code]
      exact ⟨hK, by simp [StatusBadRequest, StatusCreated]⟩
    | ok c =>
      simp only [createClient_ok s body c hd, respondWithJSON_code, if_true] at hb ⊢
      have hw : wrapInt (s.currentID + 1) = s.currentID + 1 :=
        wrapInt_of_inRange _ (by omega) (by omega)
      rw [hw]
      refine ⟨?_, rfl⟩
      intro k hk
      rcases (AList.mem_insert s.clients).mp hk with h | h
      · exact ⟨s.currentID + 1, by omega, le_refl _, h⟩
      · obtain ⟨m, hm1, hm2, hm3⟩ := hK k h
        exact ⟨m, hm1, by simp only; omega, hm3⟩
  | updateClient id body =>
    simp only [handle] at hb ⊢
    cases hl : s.clients.lookup id with
    | none =>
      simp only [updateClient_absent s id body hl, respondWithError_code]
      exact ⟨hK, by simp [StatusNotFound, StatusCreated]⟩
    | some old =>
      cases hd : Decode body Client.zero with
      | error e =>
        simp only [updateClient_error s id body old e hl hd, respondWithError_code]
        exact ⟨hK, by simp [StatusBadRequest, StatusCreated]⟩
      | ok u =>
        simp only [updateClient_ok s id body old u hl hd, respondWithJSON_code]
        have hmem : id ∈ s.clients := AList.lookup_isSome.mp (by rw [hl]; rfl)
        refine ⟨?_, by simp [StatusOK, StatusCreated]⟩
        intro k hk
        rcases (AList.mem_insert s.clients).mp hk with h | h
        · exact hK k (h ▸ hmem)
        · exact hK k h
  | deleteClient id =>
    simp only [handle] at hb ⊢
    cases hl : s.clients.lookup id with
    | none =>
      simp only [deleteClient_absent s id hl, respondWithError_code]
      exact ⟨hK, by simp [StatusNotFound, StatusCreated]⟩
    | some old =>
      simp only [deleteClient_present s id old hl, respondWithJSON_code]
      refine ⟨?_, by simp [StatusNoContent, StatusCreated]⟩
      intro k hk
      exact hK k (AList.mem_erase.mp hk).2

theorem run_keysMinted (rs : List Request) : ∀ s : Store, KeysMinted s → 1 ≤ s.currentID →
    s.currentID + createdCount s rs ≤ 9223372036854775807 →
    KeysMinted (run s rs) ∧ (run s rs).currentID = s.currentID + createdCount s rs := by
  induction rs with
  | nil => intro s hK _ _; exact ⟨hK, by simp [run, createdCount]⟩
  | cons r rs ih =>
    intro s hK h1 hb
    simp only [createdCount, Nat.cast_add] at hb
    by_cases hc : (handle s r).2.code = StatusCreated
    · simp only [hc, if_true, Nat.cast_one] at hb
      have hstep := handle_keysMinted s r hK h1 (by simp only [hc, if_true]; omega)
      simp only [hc, if_true] at hstep
      have hrest := ih (handle s r).1 hstep.1 (by omega) (by omega)
      refine ⟨hrest.1, ?_⟩
      simp only [run, createdCount, hc, if_true, Nat.cast_add, Nat.cast_one]
      omega
    · simp only [hc, if_false, Nat.cast_zero] at hb
      have hstep := handle_keysMinted s r hK h1 (by simp only [hc, if_false]; omega)
      simp only [hc, if_false] at hstep
      have hrest := ih (handle s r).1 hstep.1 (by omega) (by omega)
      refine ⟨hrest.1, ?_⟩
      simp only [run, createdCount, hc, if_false, Nat.cast_add, Nat.cast_zero]
      omega

theorem run_replicate_create (n : Nat) : ∀ s : Store, wrapInt s.currentID = s.currentID →
    (run s (List.replicate n (Request.createClient (some JSON.null)))).currentID =
      wrapInt (s.currentID + n) := by
  induction n with
  | zero => intro s hs; simpa [run] using hs.symm
  | succ n ih =>
    intro s hs
    have hd : Decode (some JSON.null) Client.zero = Except.ok Client.zero := rfl
    have hstep : (handle s (Request.createClient (some JSON.null))).1.currentID =
        wrapInt (s.currentID + 1) := by
      simp only [handle, createClient_ok s _ _ hd]
    have hrest := ih (handle s (Request.createClient (some JSON.null))).1
      (by rw [hstep]; unfold wrapInt; omega)
    simp only [List.replicate_succ, run]
    rw [hrest, hstep, wrapInt_wrapInt_add]
    congr 1
    push_cast
    omega

/-! ## Decoding, field by field -/

theorem getField_setField_of_ne (c : Client) (tag t v : String) (h : tag ≠ t) :
    (c.setField tag v).getField t = c.getField t := by
  have ht : ¬ t = tag := fun e => h e.symm
  unfold Client.setField
  split_ifs with h1 h2 h3 h4 h5
  · rw [h1] at ht; simp only [Client.getField, ht, if_false]
  · rw [h2] at ht; simp only [Client.getField, ht, if_false]
  · rw [h3] at ht; simp only [Client.getField, ht, if_false]
  · rw [h4] at ht; simp only [Client.getField, ht, if_false]
  · rw [h5] at ht; simp only [Client.getField, ht, if_false]
  · rfl

theorem getField_decodeMember_of_ne (st : Client × Bool) (kv : String × JSON) (t : String)
    (h : foldName kv.1 ≠ t) : (decodeMember st kv).1.getField t = st.1.getField t := by
  unfold decodeMember
  split
  · split
    · exact getField_setField_of_ne _ _ _ _ h
    · rfl
    · rfl
  · rfl

/-- A field keeps its value while members whose key does not fold to its tag
are decoded. -/
theorem getField_foldl_decodeMember (ms : List (String × JSON)) (t : String) :
    ∀ st : Client × Bool, (∀ kv ∈ ms, foldName kv.1 ≠ t) →
      (ms.foldl decodeMember st).1.getField t = st.1.getField t := by
  induction ms with
  | nil => intro st _; rfl
  | cons kv ms ih =>
    intro st h
    rw [List.foldl_cons, ih _ (fun x hx => h x (List.mem_cons_of_mem _ hx))]
    exact getField_decodeMember_of_ne st kv t (h kv (List.mem_cons_self _ _))

/-- A field for which the object has no member is left at its zero value. -/
theorem Decode_object_omitted (ms : List (String × JSON)) (u : Client) (t : String)
    (hd : Decode (some (JSON.object ms)) Client.zero = Except.ok u)
    (h : ∀ kv ∈ ms, foldName kv.1 ≠ t) : u.getField t = Client.zero.getField t := by
  simp only [Decode] at hd
  split at hd
  · cases hd
  · cases hd
    exact getField_foldl_decodeMember ms t (Client.zero, false) h

theorem getField_setField_self (c : Client) (tag v : String) (h : tag ∈ clientTags) :
    (c.setField tag v).getField tag = v := by
  simp only [clientTags, List.mem_cons, List.mem_singleton, List.not_mem_nil, or_false] at h
  rcases h with h | h | h | h | h <;> (subst h; rfl)

/-- The last member whose key folds to a tag decides the field of that tag,
when its value is a JSON string. -/
theorem Decode_object_member (ms pre post : List (String × JSON)) (k v t : String)
    (u : Client) (hd : Decode (some (JSON.object ms)) Client.zero = Except.ok u)
    (hms : ms = pre ++ (k, JSON.string v) :: post) (hk : foldName k = t)
    (ht : t ∈ clientTags) (hpost : ∀ kv ∈ post, foldName kv.1 ≠ t) : u.getField t = v := by
  simp only [Decode] at hd
  split at hd
  · cases hd
  · cases hd
    rw [hms, List.foldl_append, List.foldl_cons, getField_foldl_decodeMember post t _ hpost]
    have hstep : ∀ st : Client × Bool,
        (decodeMember st (k, JSON.string v)).1 = st.1.setField t v := by
      intro st
      simp only [decodeMember, hk, ht, if_true]
    rw [hstep]
    exact getField_setField_self _ t v ht

/-! ## Properties of the service -/

/-- C1, as amended: in a run from the initial store with at most `2^63 - 2`
successful creates, the counter never decreases, and a successful create
returns a record whose id differs from every key and every record id found in
the store at any earlier point of the run, deleted records included. -/
theorem created_id_never_reused (pre mid : List Request) (body : Option JSON)
    (hbound : createdCount main (pre ++ mid ++ [Request.createClient body])
      ≤ 9223372036854775806) :
    (run main pre).currentID ≤ (run main (pre ++ mid)).currentID ∧
    (run main (pre ++ mid)).currentID
      ≤ (createClient (run main (pre ++ mid)) body).1.currentID ∧
    ((createClient (run main (pre ++ mid)) body).2.code = StatusCreated →
      ∃ created : Client,
        (createClient (run main (pre ++ mid)) body).2.body = some (marshalClient created) ∧
        (∀ k c, (run main pre).clients.lookup k = some c →
          k ≠ created.ID ∧ c.ID ≠ created.ID)) := by
  rw [createdCount_append, createdCount_append] at hbound
  have hm1 : main.currentID = 1 := rfl
  have hp := run_keysMinted pre main main_keysMinted (by rw [hm1]) (by rw [hm1]; omega)
  rw [hm1] at hp
  have hq := run_keysMinted mid (run main pre) hp.1 (by omega) (by omega)
  rw [← run_append] at hq
  have hI := run_idsMatchKeys pre main main_idsMatchKeys
  have hlast : createdCount (run main (pre ++ mid)) [Request.createClient body] =
      if (createClient (run main (pre ++ mid)) body).2.code = StatusCreated then 1 else 0 := by
    simp [createdCount, handle]
  rw [hlast] at hbound
  refine ⟨by omega, ?_, ?_⟩
  · cases hd : Decode body Client.zero with
    | error e => rw [createClient_error _ body e hd]
    | ok c =>
      rw [createClient_ok _ body c hd]
      simp only [createClient_ok _ body c hd, respondWithJSON_code, if_true] at hbound
      rw [wrapInt_of_inRange _ (by omega) (by omega)]
      show _ ≤ (run main (pre ++ mid)).currentID + 1
      omega
  · intro hcode
    obtain ⟨b, c, hb, hd⟩ := (handle_created_iff (run main (pre ++ mid))
      (Request.createClient body)).mp hcode
    cases hb
    simp only [hcode, if_true] at hbound
    rw [createClient_ok _ body c hd]
    have hw : wrapInt ((run main (pre ++ mid)).currentID + 1) =
        (run main (pre ++ mid)).currentID + 1 := wrapInt_of_inRange _ (by omega) (by omega)
    rw [hw]
    refine ⟨_, rfl, ?_⟩
    intro k c2 hk
    have hmem : k ∈ (run main pre).clients := AList.lookup_isSome.mp (by rw [hk]; rfl)
    obtain ⟨m, _, hm2, hm3⟩ := hp.1 k hmem
    have hne : k ≠ Itoa ((run main (pre ++ mid)).currentID + 1) := by
      rw [hm3]
      intro h
      have := Itoa_injective h
      omega
    exact ⟨hne, by rw [hI k c2 hk]; exact hne⟩

/-- C1, witness: create, delete the record just created, create again; the
second create returns id `3`, not the id `2` of the deleted record. -/
theorem created_id_never_reused_witness :
    (run main [Request.createClient (some JSON.null)]).currentID
      ≤ (run main ([Request.createClient (some JSON.null)] ++ [Request.deleteClient "2"])).currentID ∧
    (run main ([Request.createClient (some JSON.null)] ++ [Request.deleteClient "2"])).currentID
      ≤ (createClient (run main ([Request.createClient (some JSON.null)] ++
          [Request.deleteClient "2"])) (some JSON.null)).1.currentID ∧
    ((createClient (run main ([Request.createClient (some JSON.null)] ++
          [Request.deleteClient "2"])) (some JSON.null)).2.code = StatusCreated →
      ∃ created : Client,
        (createClient (run main ([Request.createClient (some JSON.null)] ++
          [Request.deleteClient "2"])) (some JSON.null)).2.body = some (marshalClient created) ∧
        (∀ k c, (run main [Request.createClient (some JSON.null)]).clients.lookup k = some c →
          k ≠ created.ID ∧ c.ID ≠ created.ID)) :=
  created_id_never_reused [Request.createClient (some JSON.null)] [Request.deleteClient "2"]
    (some JSON.null) (by decide)

/-- C1, counterexample: the counter is a 64-bit `int`. After `2^63 - 1`
creates it is smaller than after `2^63 - 2` creates, and the create that
follows `2^64 - 1` creates answers `201` with id `1`, the id of the seed
record, which has been in the store since the start of the run. -/
theorem created_id_reused_after_wraparound :
    (run main (List.replicate 9223372036854775807
        (Request.createClient (some JSON.null)))).currentID
      < (run main (List.replicate 9223372036854775806
        (Request.createClient (some JSON.null)))).currentID ∧
    (createClient (run main (List.replicate 18446744073709551615
        (Request.createClient (some JSON.null)))) (some JSON.null)).2.code = StatusCreated ∧
    (createClient (run main (List.replicate 18446744073709551615
        (Request.createClient (some JSON.null)))) (some JSON.null)).2.body
      = some (marshalClient ⟨"1", "", "", "", ""⟩) ∧
    (main.clients.lookup "1").map Client.ID = some "1" := by
  have hm : wrapInt main.currentID = main.currentID := by decide
  have hm1 : main.currentID = 1 := rfl
  have hd : Decode (some JSON.null) Client.zero = Except.ok Client.zero := rfl
  refine ⟨?_, ?_, ?_, by decide⟩
  · rw [run_replicate_create _ main hm, run_replicate_create _ main hm, hm1]
    unfold wrapInt
    push_cast
  · rw [createClient_ok _ _ _ hd]; rfl
  · rw [createClient_ok _ _ _ hd]
    simp only [run_replicate_create _ main hm, hm1]
    have h0 : wrapInt (wrapInt (1 + ((18446744073709551615 : Nat) : Int)) + 1) = 1 := by
      unfold wrapInt
      push_cast
    rw [h0]
    rfl

/-- C10: in every state reachable from the initial store, each record of the
mapping has an id equal to the key it is stored under, so records stored under
different keys have different ids. -/
theorem reachable_ids_match_keys (reqs : List Request) :
    (∀ k c, (run main reqs).clients.lookup k = some c → c.ID = k) ∧
    (∀ k1 k2 c1 c2, (run main reqs).clients.lookup k1 = some c1 →
      (run main reqs).clients.lookup k2 = some c2 → k1 ≠ k2 → c1.ID ≠ c2.ID) := by
  have hI := run_idsMatchKeys reqs main main_idsMatchKeys
  refine ⟨hI, ?_⟩
  intro k1 k2 c1 c2 h1 h2 hne
  rw [hI k1 c1 h1, hI k2 c2 h2]
  exact hne

/-- C2: when the body decodes to `c`, create answers `201` with `c` under a
fresh, non-empty, server-assigned id (whatever id `c` carried), and a get for
that id on the resulting store answers `200` with the same record. -/
theorem create_then_get (s : Store) (body : Option JSON) (c : Client)
    (hd : Decode body Client.zero = Except.ok c) :
    (createClient s body).2.code = StatusCreated ∧
    (createClient s body).2.body =
      some (marshalClient { c with ID := Itoa (wrapInt (s.currentID + 1)) }) ∧
    Itoa (wrapInt (s.currentID + 1)) ≠ "" ∧
    (getClient (createClient s body).1 (Itoa (wrapInt (s.currentID + 1)))).2.code = StatusOK ∧
    (getClient (createClient s body).1 (Itoa (wrapInt (s.currentID + 1)))).2.body =
      some (marshalClient { c with ID := Itoa (wrapInt (s.currentID + 1)) }) := by
  rw [createClient_ok s body c hd]
  have hl : (AList.insert (Itoa (wrapInt (s.currentID + 1)))
      ({ c with ID := Itoa (wrapInt (s.currentID + 1)) } : Client) s.clients).lookup
      (Itoa (wrapInt (s.currentID + 1))) =
      some { c with ID := Itoa (wrapInt (s.currentID + 1)) } := AList.lookup_insert _
  refine ⟨rfl, rfl, Itoa_ne_empty _, ?_, ?_⟩
  · rw [getClient_present _ _ _ hl]; rfl
  · rw [getClient_present _ _ _ hl]; rfl

/-- C2, witness: the record Ana, 02/02/1991, Rua A, 111 posted to the initial
store comes back with id `2`, from the create and from the get. -/
theorem create_then_get_witness :
    (createClient main (some (JSON.object [("nome", JSON.string "Ana"),
      ("nascimento", JSON.string "02/02/1991"), ("endereco", JSON.string "Rua A"),
      ("telefone", JSON.string "111")]))).2.code = StatusCreated ∧
    (createClient main (some (JSON.object [("nome", JSON.string "Ana"),
      ("nascimento", JSON.string "02/02/1991"), ("endereco", JSON.string "Rua A"),
      ("telefone", JSON.string "111")]))).2.body =
      some (marshalClient ⟨"2", "Ana", "02/02/1991", "Rua A", "111"⟩) ∧
    "2" ≠ "" ∧
    (getClient (createClient main (some (JSON.object [("nome", JSON.string "Ana"),
      ("nascimento", JSON.string "02/02/1991"), ("endereco", JSON.string "Rua A"),
      ("telefone", JSON.string "111")]))).1 "2").2.code = StatusOK ∧
    (getClient (createClient main (some (JSON.object [("nome", JSON.string "Ana"),
      ("nascimento", JSON.string "02/02/1991"), ("endereco", JSON.string "Rua A"),
      ("telefone", JSON.string "111")]))).1 "2").2.body =
      some (marshalClient ⟨"2", "Ana", "02/02/1991", "Rua A", "111"⟩) :=
  create_then_get main _ ⟨"", "Ana", "02/02/1991", "Rua A", "111"⟩ rfl

/-- C3: on an id present in the store and a body that decodes to `u`, update
answers `200`, and the record returned and stored under the id is `u` with its
id set to the path parameter: nothing of the previous record is kept, a field
for which the body has no member is the empty string, the other records and the
counter are untouched. -/
theorem update_full_replace (s : Store) (id : String) (body : Option JSON) (old u : Client)
    (hl : s.clients.lookup id = some old) (hd : Decode body Client.zero = Except.ok u) :
    (updateClient s id body).2.code = StatusOK ∧
    (updateClient s id body).2.body = some (marshalClient { u with ID := id }) ∧
    (updateClient s id body).1.clients.lookup id = some { u with ID := id } ∧
    (∀ k, k ≠ id → (updateClient s id body).1.clients.lookup k = s.clients.lookup k) ∧
    (updateClient s id body).1.currentID = s.currentID ∧
    (body = some JSON.null → u = Client.zero) ∧
    (∀ ms, body = some (JSON.object ms) →
      ((∀ kv ∈ ms, foldName kv.1 ≠ "nome") → u.Nome = "") ∧
      ((∀ kv ∈ ms, foldName kv.1 ≠ "nascimento") → u.Nascimento = "") ∧
      ((∀ kv ∈ ms, foldName kv.1 ≠ "endereco") → u.Endereco = "") ∧
      ((∀ kv ∈ ms, foldName kv.1 ≠ "telefone") → u.Telefone = "")) := by
  rw [updateClient_ok s id body old u hl hd]
  refine ⟨rfl, rfl, AList.lookup_insert _, fun k hk => AList.lookup_insert_ne hk, rfl, ?_, ?_⟩
  · intro hb
    rw [hb] at hd
    cases hd
    rfl
  · intro ms hb
    rw [hb] at hd
    exact ⟨fun h => Decode_object_omitted ms u "nome" hd h,
      fun h => Decode_object_omitted ms u "nascimento" hd h,
      fun h => Decode_object_omitted ms u "endereco" hd h,
      fun h => Decode_object_omitted ms u "telefone" hd h⟩

/-- C3, witness: the seed record is replaced by a body that only names Bruno. -/
theorem update_full_replace_witness :
    (updateClient main "1" (some (JSON.object [("id", JSON.string "9"),
      ("nome", JSON.string "Bruno")]))).1.clients.lookup "1" =
      some ⟨"1", "Bruno", "", "", ""⟩ :=
  (update_full_replace main "1" (some (JSON.object [("id", JSON.string "9"),
    ("nome", JSON.string "Bruno")])) ⟨"1", "John Doe", "01/01/1990", "123 Main St", "555-5555"⟩
    ⟨"9", "Bruno", "", "", ""⟩ rfl rfl).2.2.1

/-- C4: delete on an id present answers `204` without body, and a get for the
id on the resulting store answers `404`; delete on an id not present answers
`404` and returns the store as it was. -/
theorem delete_then_get (s : Store) (id : String) :
    (∀ old, s.clients.lookup id = some old →
      (deleteClient s id).2.code = StatusNoContent ∧
      (deleteClient s id).2.body = none ∧
      (getClient (deleteClient s id).1 id).2.code = StatusNotFound) ∧
    (s.clients.lookup id = none →
      (deleteClient s id).2.code = StatusNotFound ∧ (deleteClient s id).1 = s) := by
  constructor
  · intro old hl
    rw [deleteClient_present s id old hl]
    refine ⟨rfl, rfl, ?_⟩
    rw [getClient_absent _ id (AList.lookup_erase id s.clients)]
    rfl
  · intro hl
    rw [deleteClient_absent s id hl]
    exact ⟨rfl, rfl⟩

/-- C4, witness: deleting the seed record, then asking for it. -/
theorem delete_then_get_witness :
    (deleteClient main "1").2.code = StatusNoContent ∧
    (deleteClient main "1").2.body = none ∧
    (getClient (deleteClient main "1").1 "1").2.code = StatusNotFound :=
  (delete_then_get main "1").1 _ rfl

/-- C5: a body that fails to decode makes create answer `400` with an error
object and return the store as it was, and makes update on an id present do
the same. -/
theorem bad_body_leaves_store (s : Store) (body : Option JSON) (e : DecodeError)
    (hd : Decode body Client.zero = Except.error e) :
    ((createClient s body).2.code = StatusBadRequest ∧
      (createClient s body).2.body =
        some (JSON.object [("error", JSON.string "Requisição com JSON inválido")]) ∧
      (createClient s body).1 = s) ∧
    (∀ id old, s.clients.lookup id = some old →
      (updateClient s id body).2.code = StatusBadRequest ∧
      (updateClient s id body).2.body =
        some (JSON.object [("error", JSON.string "Requisição com JSON inválido")]) ∧
      (updateClient s id body).1 = s) := by
  constructor
  · rw [createClient_error s body e hd]
    exact ⟨rfl, rfl, rfl⟩
  · intro id old hl
    rw [updateClient_error s id body old e hl hd]
    exact ⟨rfl, rfl, rfl⟩

/-- C5, witness: a body from which no JSON value can be read, on the initial
store. -/
theorem bad_body_leaves_store_witness :
    ((createClient main none).2.code = StatusBadRequest ∧
      (createClient main none).2.body =
        some (JSON.object [("error", JSON.string "Requisição com JSON inválido")]) ∧
      (createClient main none).1 = main) ∧
    (∀ id old, main.clients.lookup id = some old →
      (updateClient main id none).2.code = StatusBadRequest ∧
      (updateClient main id none).2.body =
        some (JSON.object [("error", JSON.string "Requisição com JSON inválido")]) ∧
      (updateClient main id none).1 = main) :=
  bad_body_leaves_store main none DecodeError.syntaxError rfl

/-- C6: update on an id not present answers `404`, not `400`, whatever the
body, and returns the store as it was. -/
theorem update_absent_is_not_found (s : Store) (id : String) (body : Option JSON)
    (hl : s.clients.lookup id = none) :
    (updateClient s id body).2.code = StatusNotFound ∧
    (updateClient s id body).2.code ≠ StatusBadRequest ∧
    (updateClient s id body).2.body =
      some (JSON.object [("error", JSON.string "Cliente não encontrado")]) ∧
    (updateClient s id body).1 = s := by
  rw [updateClient_absent s id body hl]
  exact ⟨rfl, by simp [respondWithError_code, StatusNotFound, StatusBadRequest], rfl, rfl⟩

/-- C6, witness: an unknown id with an unreadable body, on the initial store. -/
theorem update_absent_is_not_found_witness :
    (updateClient main "7" none).2.code = StatusNotFound ∧
    (updateClient main "7" none).2.code ≠ StatusBadRequest ∧
    (updateClient main "7" none).2.body =
      some (JSON.object [("error", JSON.string "Cliente não encontrado")]) ∧
    (updateClient main "7" none).1 = main :=
  update_absent_is_not_found main "7" none rfl

/-- C7: list answers `200` and returns the store as it was; its body is an
array with one element per entry of the mapping, namely the record of that
entry, for a duplicate-free enumeration of all the entries; for an empty
mapping the body is the empty array. -/
theorem list_returns_all (s : Store) :
    (getClients s).1 = s ∧
    (getClients s).2.code = StatusOK ∧
    (∃ l : List (String × Client),
      (l.map Prod.fst).Nodup ∧
      (∀ id c, (id, c) ∈ l ↔ s.clients.lookup id = some c) ∧
      (getClients s).2.body = some (JSON.array (l.map fun e => marshalClient e.2))) ∧
    ((∀ id, s.clients.lookup id = none) → (getClients s).2.body = some (JSON.array [])) := by
  refine ⟨getClients_store s, by rw [getClients_response]; rfl, ?_, ?_⟩
  · refine ⟨s.clients.entries.map (fun e => (e.1, e.2)), ?_, ?_, ?_⟩
    · have hk : (s.clients.entries.map fun e => (e.1, e.2)).map Prod.fst = s.clients.keys := by
        simp [AList.keys, List.keys, List.map_map, Function.comp_def]
      rw [hk]
      exact s.clients.keys_nodup
    · intro id c
      rw [← Option.mem_def, AList.mem_lookup_iff]
      simp only [List.mem_map, Prod.mk.injEq]
      constructor
      · rintro ⟨⟨k, v⟩, hmem, hk, hv⟩
        simp only at hk hv
        subst hk; subst hv
        exact hmem
      · intro hmem
        exact ⟨⟨id, c⟩, hmem, rfl, rfl⟩
    · rw [getClients_response]
      simp [respondWithJSON, marshal, List.map_map, Function.comp_def]
  · intro hnone
    have h0 : s.clients.entries = [] := by
      cases he : s.clients.entries with
      | nil => rfl
      | cons e es =>
        have hmem : (Sigma.mk e.1 e.2) ∈ s.clients.entries := by rw [he]; simp
        have := AList.mem_lookup_iff.mpr hmem
        rw [Option.mem_def, hnone e.1] at this
        cases this
    rw [getClients_response, h0]
    rfl

/-- C8: get answers `200` with the record stored under the id when there is
one, and `404` with the error object otherwise; the store is returned as it
was. -/
theorem get_by_id (s : Store) (id : String) :
    (getClient s id).1 = s ∧
    (∀ c, s.clients.lookup id = some c →
      (getClient s id).2.code = StatusOK ∧ (getClient s id).2.body = some (marshalClient c)) ∧
    (s.clients.lookup id = none →
      (getClient s id).2.code = StatusNotFound ∧
      (getClient s id).2.body =
        some (JSON.object [("error", JSON.string "Cliente não encontrado")])) := by
  refine ⟨?_, ?_, ?_⟩
  · cases hl : s.clients.lookup id with
    | none => rw [getClient_absent s id hl]
    | some c => rw [getClient_present s id c hl]
  · intro c hl
    rw [getClient_present s id c hl]
    exact ⟨rfl, rfl⟩
  · intro hl
    rw [getClient_absent s id hl]
    exact ⟨rfl, rfl⟩

/-- C9, as amended: the JSON object of a record has the five string-valued
keys `id`, `nome`, `nascimento`, `endereco`, `telefone`. When the body is an
object that decodes, a member that gives `nome`, `nascimento`, `endereco` or
`telefone` as a string (and is the last one for its key) sets that field of
the decoded record; create and update store the decoded record, with the id
they assign, and their responses carry its fields under those keys. -/
theorem client_json_keys (s : Store) (ms : List (String × JSON)) (c : Client)
    (hd : Decode (some (JSON.object ms)) Client.zero = Except.ok c) :
    (∀ r : Client, marshalClient r =
      JSON.object [("id", JSON.string r.ID), ("nome", JSON.string r.Nome),
        ("nascimento", JSON.string r.Nascimento), ("endereco", JSON.string r.Endereco),
        ("telefone", JSON.string r.Telefone)]) ∧
    (∀ pre k v post, ms = pre ++ (k, JSON.string v) :: post →
      ((foldName k = "nome" → (∀ kv ∈ post, foldName kv.1 ≠ "nome") → c.Nome = v) ∧
       (foldName k = "nascimento" → (∀ kv ∈ post, foldName kv.1 ≠ "nascimento") →
          c.Nascimento = v) ∧
       (foldName k = "endereco" → (∀ kv ∈ post, foldName kv.1 ≠ "endereco") →
          c.Endereco = v) ∧
       (foldName k = "telefone" → (∀ kv ∈ post, foldName kv.1 ≠ "telefone") →
          c.Telefone = v))) ∧
    ((createClient s (some (JSON.object ms))).1.clients.lookup
        (Itoa (wrapInt (s.currentID + 1))) =
      some ⟨Itoa (wrapInt (s.currentID + 1)), c.Nome, c.Nascimento, c.Endereco, c.Telefone⟩) ∧
    ((createClient s (some (JSON.object ms))).2.body =
      some (JSON.object [("id", JSON.string (Itoa (wrapInt (s.currentID + 1)))),
        ("nome", JSON.string c.Nome), ("nascimento", JSON.string c.Nascimento),
        ("endereco", JSON.string c.Endereco), ("telefone", JSON.string c.Telefone)])) ∧
    (∀ id old, s.clients.lookup id = some old →
      (updateClient s id (some (JSON.object ms))).1.clients.lookup id =
        some ⟨id, c.Nome, c.Nascimento, c.Endereco, c.Telefone⟩ ∧
      (updateClient s id (some (JSON.object ms))).2.body =
        some (JSON.object [("id", JSON.string id), ("nome", JSON.string c.Nome),
          ("nascimento", JSON.string c.Nascimento), ("endereco", JSON.string c.Endereco),
          ("telefone", JSON.string c.Telefone)])) := by
  refine ⟨fun r => rfl, ?_, ?_, ?_, ?_⟩
  · intro pre k v post hms
    exact ⟨fun hk hp => Decode_object_member ms pre post k v "nome" c hd hms hk (by decide) hp,
      fun hk hp => Decode_object_member ms pre post k v "nascimento" c hd hms hk (by decide) hp,
      fun hk hp => Decode_object_member ms pre post k v "endereco" c hd hms hk (by decide) hp,
      fun hk hp => Decode_object_member ms pre post k v "telefone" c hd hms hk (by decide) hp⟩
  · rw [createClient_ok s _ _ hd]
    exact AList.lookup_insert _
  · rw [createClient_ok s _ _ hd]
    rfl
  · intro id old hl
    rw [updateClient_ok s id _ old _ hl hd]
    exact ⟨AList.lookup_insert _, rfl⟩

/-- C9, witness: the record Ana, 02/02/1991, Rua A, 111, given under the keys
`nome`, `nascimento`, `endereco`, `telefone` (the first in upper case), is
stored with its four fields by a create on the initial store, and the response
carries them under the same keys. -/
theorem client_json_keys_witness :
    ((createClient main (some (JSON.object [("NOME", JSON.string "Ana"),
        ("nascimento", JSON.string "02/02/1991"), ("endereco", JSON.string "Rua A"),
        ("telefone", JSON.string "111")]))).1.clients.lookup "2" =
      some ⟨"2", "Ana", "02/02/1991", "Rua A", "111"⟩) ∧
    ((createClient main (some (JSON.object [("NOME", JSON.string "Ana"),
        ("nascimento", JSON.string "02/02/1991"), ("endereco", JSON.string "Rua A"),
        ("telefone", JSON.string "111")]))).2.body =
      some (JSON.object [("id", JSON.string "2"), ("nome", JSON.string "Ana"),
        ("nascimento", JSON.string "02/02/1991"), ("endereco", JSON.string "Rua A"),
        ("telefone", JSON.string "111")])) :=
  ⟨(client_json_keys main [("NOME", JSON.string "Ana"),
      ("nascimento", JSON.string "02/02/1991"), ("endereco", JSON.string "Rua A"),
      ("telefone", JSON.string "111")] ⟨"", "Ana", "02/02/1991", "Rua A", "111"⟩ rfl).2.2.1,
   (client_json_keys main [("NOME", JSON.string "Ana"),
      ("nascimento", JSON.string "02/02/1991"), ("endereco", JSON.string "Rua A"),
      ("telefone", JSON.string "111")] ⟨"", "Ana", "02/02/1991", "Rua A", "111"⟩ rfl).2.2.2.1⟩

/-- C9, counterexample: the body of the spec, with the keys `name`,
`birth_date`, `address` and `phone`, decodes without error and sets none of
the four fields; the record created from it on the initial store has four empty
fields, and the response names them `nome`, `nascimento`, `endereco`,
`telefone`. -/
theorem spec_keys_set_no_field :
    ((createClient main (some (JSON.object [("name", JSON.string "Ana"),
      ("birth_date", JSON.string "02/02/1991"), ("address", JSON.string "Rua A"),
      ("phone", JSON.string "111")]))).1.clients.lookup "2" =
      some ⟨"2", "", "", "", ""⟩) ∧
    ((createClient main (some (JSON.object [("name", JSON.string "Ana"),
      ("birth_date", JSON.string "02/02/1991"), ("address", JSON.string "Rua A"),
      ("phone", JSON.string "111")]))).2.code = StatusCreated) ∧
    ((createClient main (some (JSON.object [("name", JSON.string "Ana"),
      ("birth_date", JSON.string "02/02/1991"), ("address", JSON.string "Rua A"),
      ("phone", JSON.string "111")]))).2.body =
      some (JSON.object [("id", JSON.string "2"), ("nome", JSON.string ""),
        ("nascimento", JSON.string ""), ("endereco", JSON.string ""),
        ("telefone", JSON.string "")])) :=
  ⟨by decide, by decide, rfl⟩

end Ristorant
